import Mathlib

/-!
Shallow embedding of the MERN-Forum backend content store
(backend Express controllers for boards, threads, answers and likes).

Content text (titles, bodies, board names) is modelled as `List Char`
(a JavaScript string is a sequence of UTF-16 units; `substring` and
`trim` become `List.take` and whitespace-stripping on that sequence).
Identifiers, timestamps and roles are plain `String`s, compared for
equality only.  MongoDB's `updateOne` (update the first matching
document), `deleteMany` (remove every matching document) and document
`delete` (remove that one document) become `updateFirst`, `List.filter`
and `removeFirst` on the in-memory collections.  Numeric counters are
`Int` (Mongo `$inc` arithmetic).  Each controller returns the new store
paired with `Option Err`; `none` means the request succeeded, and a
thrown null-dereference (a lookup that found nothing and was then used)
surfaces as `Err.internalError`, matching the catch-all
`createError.InternalServerError`.
-/

namespace Forum

/-- Attachment record as built from the multer upload in the controllers. -/
structure Attach where
  file : String
  type : String
  size : Nat
deriving Repr, DecidableEq

/-- Edited marker holding the timestamp of the last content edit. -/
structure Edited where
  createdAt : String
deriving Repr, DecidableEq

/-- Board document. -/
structure Board where
  id : String
  name : List Char
  title : List Char
  body : List Char
  position : Int
  createdAt : String
  threadsCount : Int
  answersCount : Int
  newestThread : Option String
  newestAnswer : Option String
deriving Repr, DecidableEq

/-- Thread document. -/
structure Thread where
  id : String
  boardId : String
  pined : Bool
  closed : Bool
  title : List Char
  body : List Char
  createdAt : String
  author : String
  newestAnswer : Option String
  edited : Option Edited
  likes : List String
  answersCount : Int
  attach : Option (List Attach)
deriving Repr, DecidableEq

/-- Answer document (boardId is the denormalized copy taken from the thread). -/
structure Answer where
  id : String
  boardId : String
  threadId : String
  answeredTo : Option String
  body : List Char
  createdAt : String
  author : String
  edited : Option Edited
  likes : List String
  attach : Option (List Attach)
deriving Repr, DecidableEq

/-- Authenticated request payload: `req.payload` carries the user id and role. -/
structure Payload where
  id : String
  role : String
deriving Repr, DecidableEq

/-- Errors the controllers can produce via `next(createError...)`.
`internalError` additionally stands for a thrown null dereference caught by
the surrounding try/catch. -/
inductive Err where
  | badRequest (msg : String)
  | unauthorized (msg : String)
  | internalError
deriving Repr, DecidableEq

/-- Store of the three collections. -/
structure Store where
  boards : List Board
  threads : List Thread
  answers : List Answer
deriving Repr, DecidableEq

/-- Empty database. -/
def emptyStore : Store := ⟨[], [], []⟩

/-- Character class used by JavaScript `trim` (the whitespace that matters here). -/
def isWhite (c : Char) : Bool :=
  c == ' ' || c == '\t' || c == '\n' || c == '\r'

/-- JavaScript `s.trim()` on the unit sequence. -/
def jsTrim (s : List Char) : List Char :=
  ((s.dropWhile isWhite).reverse.dropWhile isWhite).reverse

/-- JavaScript `s.substring(0, n)` on the unit sequence. -/
def jsSubstr (s : List Char) (n : Nat) : List Char :=
  s.take n

/-- Update the first element satisfying `p` (MongoDB `updateOne` semantics). -/
def updateFirst (p : α → Bool) (f : α → α) : List α → List α
  | [] => []
  | x :: xs => if p x then f x :: xs else x :: updateFirst p f xs

/-- Remove the first element satisfying `p` (Mongoose `document.delete()`). -/
def removeFirst (p : α → Bool) : List α → List α
  | [] => []
  | x :: xs => if p x then xs else x :: removeFirst p xs

/-- Mongoose `findById` on the board collection. -/
def findBoard (s : Store) (id : String) : Option Board :=
  s.boards.find? (fun b => b.id == id)

/-- Mongoose `findById` on the thread collection. -/
def findThread (s : Store) (id : String) : Option Thread :=
  s.threads.find? (fun t => t.id == id)

/-- Mongoose `findById` on the answer collection. -/
def findAnswer (s : Store) (id : String) : Option Answer :=
  s.answers.find? (fun a => a.id == id)

/-- Position check of createBoard/editBoard:
`!position || !Number.isInteger(position) || position < 0`.
The value arrives from JSON as a number or is absent; with an
integer-valued model `!Number.isInteger(position)` is always false,
`!position` is true exactly for an absent value or the number 0, and
the last disjunct rejects negatives.  Note that the JavaScript test
therefore rejects `position = 0` even though the error message speaks
of a number check. -/
def positionRejected : Option Int → Bool
  | none => true
  | some p => p == 0 || p < 0

/-- Controller `createBoard`. -/
def createBoard (payload : Payload) (name title body : List Char) (position : Option Int)
    (now newId : String) (s : Store) : Store × Option Err :=
  if payload.role != "admin" then (s, some (.unauthorized "Action not allowed"))
  else if jsTrim name == [] then (s, some (.badRequest "Board name must not be empty"))
  else if jsTrim title == [] then (s, some (.badRequest "Board title must not be empty"))
  else if positionRejected position then (s, some (.badRequest "Position must be number"))
  else
    let newBoard : Board :=
      { id := newId, name := name, title := title, body := body
        position := position.getD 0, createdAt := now
        threadsCount := 0, answersCount := 0
        newestThread := none, newestAnswer := none }
    ({ s with boards := s.boards ++ [newBoard] }, none)

/-- Controller `deleteBoard`; `board.delete()` on a failed lookup throws. -/
def deleteBoard (payload : Payload) (boardId : String) (s : Store) : Store × Option Err :=
  if payload.role != "admin" then (s, some (.unauthorized "Action not allowed"))
  else if boardId == "" then (s, some (.badRequest "boardId must not be empty"))
  else match findBoard s boardId with
    | none => (s, some .internalError)
    | some _ =>
      let boards2 := removeFirst (fun b => b.id == boardId) s.boards
      ({ s with boards := boards2 }, none)

/-- Controller `editBoard`; `updateOne` replaces name/title/body/position. -/
def editBoard (payload : Payload) (boardId : String) (name title body : List Char)
    (position : Option Int) (s : Store) : Store × Option Err :=
  if payload.role != "admin" then (s, some (.unauthorized "Action not allowed"))
  else if jsTrim name == [] then (s, some (.badRequest "Board name must not be empty"))
  else if jsTrim title == [] then (s, some (.badRequest "Board title must not be empty"))
  else if positionRejected position then (s, some (.badRequest "Position must be number"))
  else
    let boards2 := updateFirst (fun b => b.id == boardId)
      (fun b => { b with name := name, title := title, body := body,
                         position := position.getD 0 }) s.boards
    ({ s with boards := boards2 }, none)

/-- Controller `createThread`: validates, stores the truncated thread, then
bumps the owning board's threadsCount and newestThread. -/
def createThread (payload : Payload) (boardId : String) (title body : List Char)
    (files : Option (List Attach)) (now newId : String) (s : Store) : Store × Option Err :=
  if boardId == "" then (s, some (.badRequest "boardId must not be empty"))
  else if jsTrim title == [] then (s, some (.badRequest "Thread title must not be empty"))
  else if jsTrim body == [] then (s, some (.badRequest "Thread body must not be empty"))
  else
    let newThread : Thread :=
      { id := newId, boardId := boardId, pined := false, closed := false
        title := jsSubstr title 100, body := jsSubstr body 1000
        createdAt := now, author := payload.id, newestAnswer := some now
        edited := none, likes := [], answersCount := 0, attach := files }
    let s1 := { s with threads := s.threads ++ [newThread] }
    let boards2 := updateFirst (fun b => b.id == boardId)
      (fun b => { b with threadsCount := b.threadsCount + 1, newestThread := some now })
      s1.boards
    ({ s1 with boards := boards2 }, none)

/-- Controller `deleteThread`: deletes the thread, cascades `deleteMany` over
its answers, and decrements only the board's threadsCount. -/
def deleteThread (payload : Payload) (threadId : String) (s : Store) : Store × Option Err :=
  if payload.role != "admin" then (s, some (.unauthorized "Action not allowed"))
  else if threadId == "" then (s, some (.badRequest "threadId must not be empty"))
  else match findThread s threadId with
    | none => (s, some .internalError)
    | some thread =>
      let threads2 := removeFirst (fun t => t.id == threadId) s.threads
      let s1 := { s with threads := threads2 }
      let answers2 := s1.answers.filter (fun a => a.threadId != threadId)
      let s2 := { s1 with answers := answers2 }
      let boards2 := updateFirst (fun b => b.id == thread.boardId)
        (fun b => { b with threadsCount := b.threadsCount - 1 }) s2.boards
      ({ s2 with boards := boards2 }, none)

/-- Controller `editThread`: author-only; title/body always replaced
(truncated); `closed` kept when the argument is omitted; the edited marker is
set when `closed` is omitted and nulled when it is provided. -/
def editThread (payload : Payload) (threadId : String) (title body : List Char)
    (closed : Option Bool) (now : String) (s : Store) : Store × Option Err :=
  if jsTrim title == [] then (s, some (.badRequest "Board title must not be empty"))
  else if jsTrim body == [] then (s, some (.badRequest "Thread body must not be empty"))
  else match findThread s threadId with
    | none => (s, some .internalError)
    | some thread =>
      if payload.id != thread.author then (s, some (.unauthorized "Action not allowed"))
      else
        let threads2 := updateFirst (fun t => t.id == threadId)
          (fun t => { t with
            title := jsSubstr title 100
            body := jsSubstr body 1000
            closed := match closed with
              | none => thread.closed
              | some c => c
            edited := match closed with
              | none => some { createdAt := now }
              | some _ => none }) s.threads
        ({ s with threads := threads2 }, none)

/-- Controller `adminEditThread`: admin-only; the edited marker is set only
when both `pined` and `closed` are omitted. -/
def adminEditThread (payload : Payload) (threadId : String) (title body : List Char)
    (pined closed : Option Bool) (now : String) (s : Store) : Store × Option Err :=
  if payload.role != "admin" then (s, some (.unauthorized "Action not allowed"))
  else if jsTrim title == [] then (s, some (.badRequest "Board title must not be empty"))
  else if jsTrim body == [] then (s, some (.badRequest "Thread body must not be empty"))
  else match findThread s threadId with
    | none => (s, some .internalError)
    | some thread =>
      let threads2 := updateFirst (fun t => t.id == threadId)
        (fun t => { t with
          title := jsSubstr title 100
          body := jsSubstr body 1000
          pined := match pined with
            | none => thread.pined
            | some p => p
          closed := match closed with
            | none => thread.closed
            | some c => c
          edited := match pined, closed with
            | none, none => some { createdAt := now }
            | _, _ => none }) s.threads
      ({ s with threads := threads2 }, none)

/-- Like/unlike body shared verbatim by `likeThread` and `likeAnswer`:
if `find` hits the caller's id the list is filtered (unlike), otherwise the
id is pushed (like). -/
def toggleLike (likes : List String) (userId : String) : List String :=
  if likes.any (fun l => l == userId) then likes.filter (fun l => l != userId)
  else likes ++ [userId]

/-- Controller `likeThread`: reads the thread, toggles the caller's id in the
in-memory likes array, and saves the document. -/
def likeThread (payload : Payload) (threadId : String) (s : Store) : Store × Option Err :=
  if threadId == "" then (s, some (.badRequest "threadId must not be empty"))
  else match findThread s threadId with
    | none => (s, some .internalError)
    | some thread =>
      let threads2 := updateFirst (fun t => t.id == threadId)
        (fun t => { t with likes := toggleLike thread.likes payload.id }) s.threads
      ({ s with threads := threads2 }, none)

/-- Controller `createAnswer`: validates, reads the thread (a missing thread
throws on `thread.boardId`), stores the truncated answer, then bumps
answersCount and newestAnswer on the board and on the thread. -/
def createAnswer (payload : Payload) (threadId : String) (answeredTo : Option String)
    (body : List Char) (files : Option (List Attach)) (now newId : String)
    (s : Store) : Store × Option Err :=
  if threadId == "" then (s, some (.badRequest "threadId must not be empty"))
  else if jsTrim body == [] then (s, some (.badRequest "Answer body must not be empty"))
  else match findThread s threadId with
    | none => (s, some .internalError)
    | some thread =>
      let newAnswer : Answer :=
        { id := newId, boardId := thread.boardId, threadId := threadId
          answeredTo := answeredTo, body := jsSubstr body 1000
          createdAt := now, author := payload.id
          edited := none, likes := [], attach := files }
      let s1 := { s with answers := s.answers ++ [newAnswer] }
      let boards2 := updateFirst (fun b => b.id == thread.boardId)
        (fun b => { b with answersCount := b.answersCount + 1, newestAnswer := some now })
        s1.boards
      let s2 := { s1 with boards := boards2 }
      let threads2 := updateFirst (fun t => t.id == threadId)
        (fun t => { t with answersCount := t.answersCount + 1, newestAnswer := some now })
        s2.threads
      ({ s2 with threads := threads2 }, none)

/-- Controller `deleteAnswer`: deletes the answer and decrements only the
thread's answersCount (the board's answersCount is left untouched). -/
def deleteAnswer (payload : Payload) (answerId : String) (s : Store) : Store × Option Err :=
  if payload.role != "admin" then (s, some (.unauthorized "Action not allowed"))
  else if answerId == "" then (s, some (.badRequest "answerId must not be empty"))
  else match findAnswer s answerId with
    | none => (s, some .internalError)
    | some answer =>
      let answers2 := removeFirst (fun a => a.id == answerId) s.answers
      let s1 := { s with answers := answers2 }
      let threads2 := updateFirst (fun t => t.id == answer.threadId)
        (fun t => { t with answersCount := t.answersCount - 1 }) s1.threads
      ({ s1 with threads := threads2 }, none)

/-- Controller `editAnswer`: author-only; body replaced (truncated) and the
edited marker always set. -/
def editAnswer (payload : Payload) (answerId : String) (body : List Char)
    (now : String) (s : Store) : Store × Option Err :=
  if jsTrim body == [] then (s, some (.badRequest "Answer body must not be empty"))
  else match findAnswer s answerId with
    | none => (s, some .internalError)
    | some answer =>
      if payload.id != answer.author then (s, some (.unauthorized "Action not allowed"))
      else
        let answers2 := updateFirst (fun a => a.id == answerId)
          (fun a => { a with body := jsSubstr body 1000,
                             edited := some { createdAt := now } }) s.answers
        ({ s with answers := answers2 }, none)

/-- Controller `likeAnswer`: same toggle as `likeThread` on an answer. -/
def likeAnswer (payload : Payload) (answerId : String) (s : Store) : Store × Option Err :=
  if answerId == "" then (s, some (.badRequest "answerId must not be empty"))
  else match findAnswer s answerId with
    | none => (s, some .internalError)
    | some answer =>
      let answers2 := updateFirst (fun a => a.id == answerId)
        (fun a => { a with likes := toggleLike answer.likes payload.id }) s.answers
      ({ s with answers := answers2 }, none)

/-- Mutating requests of the content store, one constructor per controller. -/
inductive Mut where
  | mkBoard (payload : Payload) (name title body : List Char) (position : Option Int)
      (now newId : String)
  | delBoard (payload : Payload) (boardId : String)
  | edBoard (payload : Payload) (boardId : String) (name title body : List Char)
      (position : Option Int)
  | mkThread (payload : Payload) (boardId : String) (title body : List Char)
      (files : Option (List Attach)) (now newId : String)
  | delThread (payload : Payload) (threadId : String)
  | edThread (payload : Payload) (threadId : String) (title body : List Char)
      (closed : Option Bool) (now : String)
  | adminEdThread (payload : Payload) (threadId : String) (title body : List Char)
      (pined closed : Option Bool) (now : String)
  | likeT (payload : Payload) (threadId : String)
  | mkAnswer (payload : Payload) (threadId : String) (answeredTo : Option String)
      (body : List Char) (files : Option (List Attach)) (now newId : String)
  | delAnswer (payload : Payload) (answerId : String)
  | edAnswer (payload : Payload) (answerId : String) (body : List Char) (now : String)
  | likeA (payload : Payload) (answerId : String)

/-- Dispatch a mutation to its controller. -/
def runMut : Mut → Store → Store × Option Err
  | .mkBoard p n t b pos now newId, s => createBoard p n t b pos now newId s
  | .delBoard p bid, s => deleteBoard p bid s
  | .edBoard p bid n t b pos, s => editBoard p bid n t b pos s
  | .mkThread p bid t b f now newId, s => createThread p bid t b f now newId s
  | .delThread p tid, s => deleteThread p tid s
  | .edThread p tid t b c now, s => editThread p tid t b c now s
  | .adminEdThread p tid t b pi c now, s => adminEditThread p tid t b pi c now s
  | .likeT p tid, s => likeThread p tid s
  | .mkAnswer p tid ato b f now newId, s => createAnswer p tid ato b f now newId s
  | .delAnswer p aid, s => deleteAnswer p aid s
  | .edAnswer p aid b now, s => editAnswer p aid b now s
  | .likeA p aid, s => likeAnswer p aid s

/-! ### List helper lemmas for updateFirst / removeFirst -/

theorem mem_updateFirst {p : α → Bool} {f : α → α} {l : List α} {y : α}
    (h : y ∈ updateFirst p f l) : y ∈ l ∨ ∃ x, x ∈ l ∧ y = f x := by
  induction l with
  | nil => simp [updateFirst] at h
  | cons a as ih =>
    simp only [updateFirst] at h
    by_cases hp : p a = true
    · rw [if_pos hp, List.mem_cons] at h
      rcases h with h | h
      · exact Or.inr ⟨a, List.mem_cons_self a as, h⟩
      · exact Or.inl (List.mem_cons_of_mem _ h)
    · rw [if_neg hp, List.mem_cons] at h
      rcases h with h | h
      · exact Or.inl (h ▸ List.mem_cons_self a as)
      · rcases ih h with h1 | ⟨x, hx, hy⟩
        · exact Or.inl (List.mem_cons_of_mem _ h1)
        · exact Or.inr ⟨x, List.mem_cons_of_mem _ hx, hy⟩

theorem map_updateFirst (g : α → β) {p : α → Bool} {f : α → α} (hg : ∀ x, g (f x) = g x)
    (l : List α) : (updateFirst p f l).map g = l.map g := by
  induction l with
  | nil => rfl
  | cons a as ih =>
    simp only [updateFirst]
    by_cases hp : p a = true
    · rw [if_pos hp]
      simp [hg]
    · rw [if_neg hp]
      simp [ih]

theorem find?_updateFirst {p : α → Bool} {f : α → α}
    (hf : ∀ x, p x = true → p (f x) = true) (l : List α) :
    (updateFirst p f l).find? p = (l.find? p).map f := by
  induction l with
  | nil => rfl
  | cons a as ih =>
    simp only [updateFirst]
    by_cases hp : p a = true
    · rw [if_pos hp, List.find?_cons_of_pos _ (hf a hp), List.find?_cons_of_pos _ hp]
      rfl
    · rw [if_neg hp, List.find?_cons_of_neg _ hp, List.find?_cons_of_neg _ hp, ih]

theorem removeFirst_sublist (p : α → Bool) (l : List α) : List.Sublist (removeFirst p l) l := by
  induction l with
  | nil => simp [removeFirst]
  | cons a as ih =>
    simp only [removeFirst]
    by_cases hp : p a = true
    · rw [if_pos hp]
      exact List.Sublist.cons a (List.Sublist.refl as)
    · rw [if_neg hp]
      exact ih.cons₂ a

theorem length_filter_removeFirst (p q : α → Bool) {l : List α} {x : α}
    (h : l.find? p = some x) :
    (l.filter q).length = ((removeFirst p l).filter q).length + (if q x then 1 else 0) := by
  induction l with
  | nil => simp at h
  | cons a as ih =>
    simp only [removeFirst]
    by_cases hp : p a = true
    · rw [List.find?_cons_of_pos _ hp] at h
      injection h with h
      subst h
      rw [if_pos hp]
      by_cases hq : q a = true
      · rw [List.filter_cons_of_pos hq, if_pos hq]
        simp
      · rw [List.filter_cons_of_neg hq, if_neg hq]
        omega
    · rw [List.find?_cons_of_neg _ hp] at h
      rw [if_neg hp]
      by_cases hq : q a = true
      · rw [List.filter_cons_of_pos hq, List.filter_cons_of_pos hq]
        simp only [List.length_cons, ih h]
        omega
      · rw [List.filter_cons_of_neg hq, List.filter_cons_of_neg hq, ih h]

theorem length_filter_updateFirst {p : α → Bool} {f : α → α} (q : α → Bool)
    (hq : ∀ x, q (f x) = q x) (l : List α) :
    ((updateFirst p f l).filter q).length = (l.filter q).length := by
  induction l with
  | nil => rfl
  | cons a as ih =>
    simp only [updateFirst]
    by_cases hp : p a = true
    · rw [if_pos hp]
      by_cases hqa : q a = true
      · rw [List.filter_cons_of_pos (by rw [hq]; exact hqa), List.filter_cons_of_pos hqa]
        simp
      · rw [List.filter_cons_of_neg (by rw [hq]; exact hqa), List.filter_cons_of_neg hqa]
    · rw [if_neg hp]
      by_cases hqa : q a = true
      · rw [List.filter_cons_of_pos hqa, List.filter_cons_of_pos hqa]
        simp [ih]
      · rw [List.filter_cons_of_neg hqa, List.filter_cons_of_neg hqa, ih]

theorem key_ne_of_mem_removeFirst {key : α → String} {l : List α} {k : String}
    (hnd : (l.map key).Nodup) {y : α}
    (hy : y ∈ removeFirst (fun a => key a == k) l) : key y ≠ k := by
  induction l with
  | nil => simp [removeFirst] at hy
  | cons a as ih =>
    rw [List.map_cons, List.nodup_cons] at hnd
    simp only [removeFirst] at hy
    by_cases hp : (key a == k) = true
    · rw [if_pos hp] at hy
      intro hk
      exact hnd.1 (by
        rw [List.mem_map]
        exact ⟨y, hy, by rw [hk]; exact (eq_of_beq hp).symm⟩)
    · rw [if_neg hp, List.mem_cons] at hy
      rcases hy with hy | hy
      · subst hy
        exact fun hk => hp (beq_iff_eq.mpr hk)
      · exact ih hnd.2 hy

/-! ### Like-toggle lemmas -/

theorem any_beq_iff_mem (likes : List String) (u : String) :
    (likes.any (fun l => l == u) = true) ↔ u ∈ likes := by
  rw [List.any_eq_true]
  constructor
  · rintro ⟨x, hx, hbe⟩
    rwa [eq_of_beq hbe] at hx
  · intro h
    exact ⟨u, h, beq_self_eq_true u⟩

theorem mem_toggleLike_self (likes : List String) (u : String) :
    u ∈ toggleLike likes u ↔ u ∉ likes := by
  unfold toggleLike
  by_cases h : likes.any (fun l => l == u) = true
  · rw [if_pos h]
    simp only [List.mem_filter, bne_iff_ne]
    constructor
    · rintro ⟨-, hne⟩
      exact absurd rfl hne
    · intro hn
      exact absurd ((any_beq_iff_mem likes u).mp h) hn
  · rw [if_neg h]
    constructor
    · intro _ hu
      exact h ((any_beq_iff_mem likes u).mpr hu)
    · intro _
      exact List.mem_append.mpr (Or.inr (List.mem_singleton.mpr rfl))

theorem mem_toggleLike_other (likes : List String) (u v : String) (hne : v ≠ u) :
    v ∈ toggleLike likes u ↔ v ∈ likes := by
  unfold toggleLike
  by_cases h : likes.any (fun l => l == u) = true
  · rw [if_pos h]
    simp only [List.mem_filter, bne_iff_ne]
    exact ⟨fun hm => hm.1, fun hm => ⟨hm, hne⟩⟩
  · rw [if_neg h]
    simp only [List.mem_append, List.mem_singleton]
    exact ⟨fun hc => hc.resolve_right hne, Or.inl⟩

/-! ### Success-branch shapes of the like controllers -/

theorem likeThread_found (s : Store) (p : Payload) (tid : String) (t : Thread)
    (htid : tid ≠ "") (ht : findThread s tid = some t) :
    likeThread p tid s =
      ({ s with threads := updateFirst (fun x => x.id == tid) (fun x => { x with likes := toggleLike t.likes p.id }) s.threads }, none) := by
  unfold likeThread
  rw [if_neg (by simp [htid]), ht]

theorem likeAnswer_found (s : Store) (p : Payload) (aid : String) (a : Answer)
    (haid : aid ≠ "") (ha : findAnswer s aid = some a) :
    likeAnswer p aid s =
      ({ s with answers := updateFirst (fun x => x.id == aid) (fun x => { x with likes := toggleLike a.likes p.id }) s.answers }, none) := by
  unfold likeAnswer
  rw [if_neg (by simp [haid]), ha]

theorem findThread_updateFirst (threads : List Thread) (tid : String) (f : Thread → Thread)
    (hf : ∀ x, (f x).id = x.id) :
    (updateFirst (fun t => t.id == tid) f threads).find? (fun t => t.id == tid)
      = (threads.find? (fun t => t.id == tid)).map f :=
  find?_updateFirst (fun x hx => by rw [hf]; exact hx) _

theorem findAnswer_updateFirst (answers : List Answer) (aid : String) (f : Answer → Answer)
    (hf : ∀ x, (f x).id = x.id) :
    (updateFirst (fun a => a.id == aid) f answers).find? (fun a => a.id == aid)
      = (answers.find? (fun a => a.id == aid)).map f :=
  find?_updateFirst (fun x hx => by rw [hf]; exact hx) _

/-! ### Example documents used by witnesses -/

def bExa : Board :=
  { id := "b1", name := ['g'], title := ['G'], body := [], position := 1
    createdAt := "T0", threadsCount := 1, answersCount := 1
    newestThread := some "T1", newestAnswer := some "T2" }

def tExa : Thread :=
  { id := "t1", boardId := "b1", pined := false, closed := false
    title := ['H', 'i'], body := ['h', 'e', 'y'], createdAt := "T1", author := "u1"
    newestAnswer := some "T2", edited := none, likes := ["u2"], answersCount := 1
    attach := none }

def aExa : Answer :=
  { id := "a1", boardId := "b1", threadId := "t1", answeredTo := none
    body := ['r', 'e'], createdAt := "T2", author := "u2"
    edited := none, likes := [], attach := none }

def sExa : Store := { boards := [bExa], threads := [tExa], answers := [aExa] }

/-- C2: for a Thread or Answer and any caller, the like toggle removes the
caller's id from the likes collection when it is present and adds it when it
is absent, and in both cases every other user id's membership in the likes
collection is unchanged (likeThread and likeAnswer behave identically). -/
theorem c2_like_toggle_membership
    (s : Store) (p : Payload) (tid aid : String) (t : Thread) (a : Answer)
    (htid : tid ≠ "") (haid : aid ≠ "")
    (ht : findThread s tid = some t) (ha : findAnswer s aid = some a) :
    (∃ t', findThread (likeThread p tid s).1 tid = some t' ∧
      t'.likes = toggleLike t.likes p.id ∧
      (p.id ∈ t'.likes ↔ p.id ∉ t.likes) ∧
      ∀ v, v ≠ p.id → (v ∈ t'.likes ↔ v ∈ t.likes)) ∧
    (∃ a', findAnswer (likeAnswer p aid s).1 aid = some a' ∧
      a'.likes = toggleLike a.likes p.id ∧
      (p.id ∈ a'.likes ↔ p.id ∉ a.likes) ∧
      ∀ v, v ≠ p.id → (v ∈ a'.likes ↔ v ∈ a.likes)) := by
  constructor
  · refine ⟨{ t with likes := toggleLike t.likes p.id }, ?_, rfl,
      mem_toggleLike_self t.likes p.id, fun v hv => mem_toggleLike_other t.likes p.id v hv⟩
    rw [likeThread_found s p tid t htid ht]
    unfold findThread
    rw [findThread_updateFirst s.threads tid (fun x => { x with likes := toggleLike t.likes p.id }) (fun x => rfl)]
    unfold findThread at ht
    rw [ht]
    rfl
  · refine ⟨{ a with likes := toggleLike a.likes p.id }, ?_, rfl,
      mem_toggleLike_self a.likes p.id, fun v hv => mem_toggleLike_other a.likes p.id v hv⟩
    rw [likeAnswer_found s p aid a haid ha]
    unfold findAnswer
    rw [findAnswer_updateFirst s.answers aid (fun x => { x with likes := toggleLike a.likes p.id }) (fun x => rfl)]
    unfold findAnswer at ha
    rw [ha]
    rfl

/-- Witness for C2 at a concrete store: user u2 unlikes the thread it had
liked and likes the answer it had not. -/
theorem c2_like_toggle_membership_witness :
    (∃ t', findThread (likeThread ⟨"u2", "user"⟩ "t1" sExa).1 "t1" = some t' ∧
      t'.likes = toggleLike tExa.likes "u2" ∧
      ("u2" ∈ t'.likes ↔ "u2" ∉ tExa.likes) ∧
      ∀ v, v ≠ "u2" → (v ∈ t'.likes ↔ v ∈ tExa.likes)) ∧
    (∃ a', findAnswer (likeAnswer ⟨"u2", "user"⟩ "a1" sExa).1 "a1" = some a' ∧
      a'.likes = toggleLike aExa.likes "u2" ∧
      ("u2" ∈ a'.likes ↔ "u2" ∉ aExa.likes) ∧
      ∀ v, v ≠ "u2" → (v ∈ a'.likes ↔ v ∈ aExa.likes)) :=
  c2_like_toggle_membership sExa ⟨"u2", "user"⟩ "t1" "a1" tExa aExa
    (by decide) (by decide) (by rfl) (by rfl)

/-- Thread with its likes erased; two threads agree on every other field
exactly when their images under this map agree. -/
def eraseLikesT (t : Thread) : Thread := { t with likes := [] }

/-- Answer with its likes erased. -/
def eraseLikesA (a : Answer) : Answer := { a with likes := [] }

/-- C7: a like toggle changes nothing but the likes set of the targeted
entity: likeThread leaves the board and answer collections untouched and
every thread unchanged except possibly its likes; likeAnswer leaves boards
and threads untouched and every answer unchanged except possibly its likes.
In particular every counter and every newest-activity timestamp on any
board, thread or answer is unchanged. -/
theorem c7_like_frame (s : Store) (p : Payload) (tid aid : String) :
    ((likeThread p tid s).1.boards = s.boards ∧
     (likeThread p tid s).1.answers = s.answers ∧
     (likeThread p tid s).1.threads.map eraseLikesT = s.threads.map eraseLikesT) ∧
    ((likeAnswer p aid s).1.boards = s.boards ∧
     (likeAnswer p aid s).1.threads = s.threads ∧
     (likeAnswer p aid s).1.answers.map eraseLikesA = s.answers.map eraseLikesA) := by
  constructor
  · unfold likeThread
    by_cases h0 : (tid == "") = true
    · rw [if_pos h0]
      exact ⟨rfl, rfl, rfl⟩
    · rw [if_neg h0]
      cases ht : findThread s tid with
      | none => exact ⟨rfl, rfl, rfl⟩
      | some t =>
        dsimp only
        refine ⟨rfl, rfl, map_updateFirst eraseLikesT ?_ s.threads⟩
        intro x
        rfl
  · unfold likeAnswer
    by_cases h0 : (aid == "") = true
    · rw [if_pos h0]
      exact ⟨rfl, rfl, rfl⟩
    · rw [if_neg h0]
      cases ha : findAnswer s aid with
      | none => exact ⟨rfl, rfl, rfl⟩
      | some a =>
        dsimp only
        refine ⟨rfl, rfl, map_updateFirst eraseLikesA ?_ s.answers⟩
        intro x
        rfl

/-- Success shape of likeThread at the level of the refreshed document. -/
theorem findThread_after_like (s : Store) (p : Payload) (tid : String) (t : Thread)
    (htid : tid ≠ "") (ht : findThread s tid = some t) :
    (likeThread p tid s).2 = none ∧
    findThread (likeThread p tid s).1 tid
      = some { t with likes := toggleLike t.likes p.id } := by
  rw [likeThread_found s p tid t htid ht]
  refine ⟨rfl, ?_⟩
  unfold findThread
  rw [findThread_updateFirst s.threads tid (fun x => { x with likes := toggleLike t.likes p.id }) (fun x => rfl)]
  unfold findThread at ht
  rw [ht]
  rfl

/-- Specification gadget for closed-flag independence: overwrite the closed
flag of one thread, all else unchanged. -/
def setThreadClosed (s : Store) (tid : String) (c : Bool) : Store :=
  { s with threads := updateFirst (fun t => t.id == tid) (fun t => { t with closed := c }) s.threads }

/-- C10: likeThread never consults the thread's closed (or pined) moderation
flag: with the thread's closed flag forced to any value - in particular to
true - the toggle succeeds and produces exactly the same likes set, namely
the toggle of the original likes by the caller. -/
theorem c10_like_ignores_closed (s : Store) (p : Payload) (tid : String) (t : Thread)
    (htid : tid ≠ "") (ht : findThread s tid = some t) : ∀ c : Bool,
    (likeThread p tid (setThreadClosed s tid c)).2 = none ∧
    (findThread (likeThread p tid (setThreadClosed s tid c)).1 tid).map Thread.likes
      = some (toggleLike t.likes p.id) := by
  intro c
  have hsc : findThread (setThreadClosed s tid c) tid = some { t with closed := c } := by
    unfold setThreadClosed findThread
    rw [findThread_updateFirst s.threads tid (fun x => { x with closed := c }) (fun x => rfl)]
    unfold findThread at ht
    rw [ht]
    rfl
  have hf := findThread_after_like (setThreadClosed s tid c) p tid { t with closed := c } htid hsc
  refine ⟨hf.1, ?_⟩
  rw [hf.2]
  rfl

/-- Witness for C10: liking the example thread with its closed flag forced
to true succeeds and toggles u2 out of the likes set. -/
theorem c10_like_ignores_closed_witness :
    (likeThread ⟨"u2", "user"⟩ "t1" (setThreadClosed sExa "t1" true)).2 = none ∧
    (findThread (likeThread ⟨"u2", "user"⟩ "t1" (setThreadClosed sExa "t1" true)).1 "t1").map Thread.likes
      = some (toggleLike tExa.likes "u2") :=
  c10_like_ignores_closed sExa ⟨"u2", "user"⟩ "t1" tExa (by decide) (by rfl) true

theorem findBoard_updateFirst (boards : List Board) (bid : String) (f : Board → Board)
    (hf : ∀ x, (f x).id = x.id) :
    (updateFirst (fun b => b.id == bid) f boards).find? (fun b => b.id == bid)
      = (boards.find? (fun b => b.id == bid)).map f :=
  find?_updateFirst (fun x hx => by rw [hf]; exact hx) _

/-- C4: for every createThread input whose trimmed title and body are
non-empty, the request succeeds (no error even for oversized inputs) and the
stored thread's title is the first 100 units of the given title and its body
the first 1000 units of the given body; hence the stored lengths are
min 100 - resp. min 1000 - of the input lengths, inputs at or under the cap
are stored unchanged, and longer inputs are clipped to exactly the cap. -/
theorem c4_createThread_truncation (p : Payload) (boardId : String) (title body : List Char)
    (files : Option (List Attach)) (now newId : String) (s : Store)
    (hb : boardId ≠ "") (htitle : jsTrim title ≠ []) (hbody : jsTrim body ≠ []) :
    (createThread p boardId title body files now newId s).2 = none ∧
    ∃ t : Thread,
      (createThread p boardId title body files now newId s).1.threads = s.threads ++ [t] ∧
      t.title = jsSubstr title 100 ∧ t.body = jsSubstr body 1000 ∧
      t.title.length = min 100 title.length ∧ t.body.length = min 1000 body.length ∧
      (title.length ≤ 100 → t.title = title) ∧ (body.length ≤ 1000 → t.body = body) := by
  unfold createThread
  rw [if_neg (by simp [hb]), if_neg (by simp [htitle]), if_neg (by simp [hbody])]
  refine ⟨rfl, _, rfl, rfl, rfl, ?_, ?_, ?_, ?_⟩
  · exact List.length_take 100 title
  · exact List.length_take 1000 body
  · intro h
    exact List.take_of_length_le h
  · intro h
    exact List.take_of_length_le h

set_option maxRecDepth 20000 in
/-- Witness for C4: a thread whose body is 1004 characters long is stored
with a body of exactly 1000 characters, and a 2-character title unchanged. -/
theorem c4_createThread_truncation_witness :
    (createThread ⟨"u1", "user"⟩ "b1" ['H', 'i'] (List.replicate 1004 'x') none "T9" "t9" emptyStore).2 = none ∧
    ∃ t : Thread,
      (createThread ⟨"u1", "user"⟩ "b1" ['H', 'i'] (List.replicate 1004 'x') none "T9" "t9" emptyStore).1.threads
        = emptyStore.threads ++ [t] ∧
      t.title = jsSubstr ['H', 'i'] 100 ∧ t.body = jsSubstr (List.replicate 1004 'x') 1000 ∧
      t.title.length = min 100 (['H', 'i'] : List Char).length ∧
      t.body.length = min 1000 (List.replicate 1004 'x').length ∧
      ((['H', 'i'] : List Char).length ≤ 100 → t.title = ['H', 'i']) ∧
      ((List.replicate 1004 'x').length ≤ 1000 → t.body = List.replicate 1004 'x') :=
  c4_createThread_truncation ⟨"u1", "user"⟩ "b1" ['H', 'i'] (List.replicate 1004 'x') none "T9" "t9"
    emptyStore (by decide) (by decide) (by decide)

/-- C3: a successful createAnswer under an existing thread increments the
thread's answersCount and the owning board's answersCount (located via the
thread's boardId) by exactly one, and sets both newestAnswer markers to the
new answer's creation time `now`. -/
theorem c3_createAnswer_counters (p : Payload) (tid : String) (ato : Option String)
    (body : List Char) (files : Option (List Attach)) (now newId : String) (s : Store)
    (t : Thread) (b : Board)
    (h1 : tid ≠ "") (h2 : jsTrim body ≠ [])
    (ht : findThread s tid = some t) (hb : findBoard s t.boardId = some b) :
    (createAnswer p tid ato body files now newId s).2 = none ∧
    findThread (createAnswer p tid ato body files now newId s).1 tid
      = some { t with answersCount := t.answersCount + 1, newestAnswer := some now } ∧
    findBoard (createAnswer p tid ato body files now newId s).1 t.boardId
      = some { b with answersCount := b.answersCount + 1, newestAnswer := some now } := by
  unfold createAnswer
  rw [if_neg (by simp [h1]), if_neg (by simp [h2]), ht]
  dsimp only
  refine ⟨rfl, ?_, ?_⟩
  · unfold findThread
    dsimp only
    rw [findThread_updateFirst s.threads tid (fun x => { x with answersCount := x.answersCount + 1, newestAnswer := some now }) (fun x => rfl)]
    unfold findThread at ht
    rw [ht]
    rfl
  · unfold findBoard
    dsimp only
    rw [findBoard_updateFirst s.boards t.boardId (fun x => { x with answersCount := x.answersCount + 1, newestAnswer := some now }) (fun x => rfl)]
    unfold findBoard at hb
    rw [hb]
    rfl

/-- Witness for C3: answering the example thread bumps both counters from 1
to 2 and moves both newestAnswer markers to the answer's timestamp. -/
theorem c3_createAnswer_counters_witness :
    (createAnswer ⟨"u3", "user"⟩ "t1" none ['o', 'k'] none "T7" "a7" sExa).2 = none ∧
    findThread (createAnswer ⟨"u3", "user"⟩ "t1" none ['o', 'k'] none "T7" "a7" sExa).1 "t1"
      = some { tExa with answersCount := tExa.answersCount + 1, newestAnswer := some "T7" } ∧
    findBoard (createAnswer ⟨"u3", "user"⟩ "t1" none ['o', 'k'] none "T7" "a7" sExa).1 tExa.boardId
      = some { bExa with answersCount := bExa.answersCount + 1, newestAnswer := some "T7" } :=
  c3_createAnswer_counters ⟨"u3", "user"⟩ "t1" none ['o', 'k'] none "T7" "a7" sExa tExa bExa
    (by decide) (by decide) (by rfl) (by rfl)

/-- C6: for an authorized editThread (author) or adminEditThread (admin)
call with valid title and body, the write always replaces title and body
with their truncations, and the edited marker is set exactly when every
moderation flag argument is omitted (for editThread: closed omitted; for
adminEditThread: both pined and closed omitted); when a moderation flag is
provided the edited marker is nulled, and the moderation flags themselves
are updated from the provided values (kept when omitted). -/
theorem c6_edit_marker (s : Store) (p q : Payload) (tid : String) (title body : List Char)
    (closed pined : Option Bool) (now : String) (t : Thread)
    (htitle : jsTrim title ≠ []) (hbody : jsTrim body ≠ [])
    (ht : findThread s tid = some t) (hauth : p.id = t.author) (hrole : q.role = "admin") :
    (∃ t', (editThread p tid title body closed now s).2 = none ∧
      findThread (editThread p tid title body closed now s).1 tid = some t' ∧
      t'.title = jsSubstr title 100 ∧ t'.body = jsSubstr body 1000 ∧
      (t'.edited.isSome = true ↔ closed = none) ∧
      t'.closed = (match closed with | none => t.closed | some c => c) ∧
      t'.pined = t.pined) ∧
    (∃ t', (adminEditThread q tid title body pined closed now s).2 = none ∧
      findThread (adminEditThread q tid title body pined closed now s).1 tid = some t' ∧
      t'.title = jsSubstr title 100 ∧ t'.body = jsSubstr body 1000 ∧
      (t'.edited.isSome = true ↔ (pined = none ∧ closed = none)) ∧
      t'.closed = (match closed with | none => t.closed | some c => c) ∧
      t'.pined = (match pined with | none => t.pined | some v => v)) := by
  constructor
  · unfold editThread
    rw [if_neg (by simp [htitle]), if_neg (by simp [hbody]), ht]
    dsimp only
    rw [if_neg (by simp [hauth])]
    dsimp only
    refine ⟨{ t with
        title := jsSubstr title 100
        body := jsSubstr body 1000
        closed := match closed with | none => t.closed | some c => c
        edited := match closed with | none => some { createdAt := now } | some _ => none },
      rfl, ?_, rfl, rfl, ?_, rfl, rfl⟩
    · unfold findThread
      dsimp only
      rw [findThread_updateFirst s.threads tid _ (by intro x; rfl)]
      unfold findThread at ht
      rw [ht]
      rfl
    · cases closed <;> simp
  · unfold adminEditThread
    rw [if_neg (by simp [hrole]), if_neg (by simp [htitle]), if_neg (by simp [hbody]), ht]
    dsimp only
    refine ⟨{ t with
        title := jsSubstr title 100
        body := jsSubstr body 1000
        pined := match pined with | none => t.pined | some v => v
        closed := match closed with | none => t.closed | some c => c
        edited := match pined, closed with | none, none => some { createdAt := now } | _, _ => none },
      rfl, ?_, rfl, rfl, ?_, rfl, rfl⟩
    · unfold findThread
      dsimp only
      rw [findThread_updateFirst s.threads tid _ (by intro x; rfl)]
      unfold findThread at ht
      rw [ht]
      rfl
    · cases pined <;> cases closed <;> simp

/-- Witness for C6: the author and the admin both edit the example thread
passing closed := true while pined is omitted, so title and body update but
no edited marker is set in either variant. -/
theorem c6_edit_marker_witness :
    (∃ t', (editThread ⟨"u1", "user"⟩ "t1" ['A'] ['B'] (some true) "T8" sExa).2 = none ∧
      findThread (editThread ⟨"u1", "user"⟩ "t1" ['A'] ['B'] (some true) "T8" sExa).1 "t1" = some t' ∧
      t'.title = jsSubstr ['A'] 100 ∧ t'.body = jsSubstr ['B'] 1000 ∧
      (t'.edited.isSome = true ↔ (some true : Option Bool) = none) ∧
      t'.closed = (match (some true : Option Bool) with | none => tExa.closed | some c => c) ∧
      t'.pined = tExa.pined) ∧
    (∃ t', (adminEditThread ⟨"u9", "admin"⟩ "t1" ['A'] ['B'] none (some true) "T8" sExa).2 = none ∧
      findThread (adminEditThread ⟨"u9", "admin"⟩ "t1" ['A'] ['B'] none (some true) "T8" sExa).1 "t1" = some t' ∧
      t'.title = jsSubstr ['A'] 100 ∧ t'.body = jsSubstr ['B'] 1000 ∧
      (t'.edited.isSome = true ↔ ((none : Option Bool) = none ∧ (some true : Option Bool) = none)) ∧
      t'.closed = (match (some true : Option Bool) with | none => tExa.closed | some c => c) ∧
      t'.pined = (match (none : Option Bool) with | none => tExa.pined | some v => v)) :=
  c6_edit_marker sExa ⟨"u1", "user"⟩ ⟨"u9", "admin"⟩ "t1" ['A'] ['B'] (some true) none "T8" tExa
    (by decide) (by decide) (by rfl) (by rfl) (by rfl)

/-- C8 counterexample: an admin createBoard call with non-empty trimmed
name and title and position = 0 - a non-negative integer - is rejected with
the bad-request (InvalidArgument) error, because the JavaScript guard
`!position` is true for the number 0.  This refutes the claim that no
non-negative integer position fails. -/
theorem c8_counterexample :
    jsTrim ['G'] ≠ [] ∧
    (createBoard ⟨"u1", "admin"⟩ ['g'] ['G'] [] (some 0) "T0" "b9" emptyStore).2
      = some (Err.badRequest "Position must be number") ∧
    (createBoard ⟨"u1", "admin"⟩ ['g'] ['G'] [] (some 0) "T0" "b9" emptyStore).1
      = emptyStore := by
  refine ⟨by decide, by decide, by decide⟩

theorem positionRejected_eq_false (position : Option Int) :
    positionRejected position = false ↔ ∃ k, position = some k ∧ 0 < k := by
  cases position with
  | none => simp [positionRejected]
  | some k =>
    simp only [positionRejected, Bool.or_eq_false_iff, beq_eq_false_iff_ne, ne_eq,
      decide_eq_false_iff_not, not_lt, Option.some.injEq]
    constructor
    · rintro ⟨h0, hge⟩
      exact ⟨k, rfl, lt_of_le_of_ne hge (fun h => h0 h.symm)⟩
    · rintro ⟨j, hj, hpos⟩
      cases hj
      exact ⟨by omega, by omega⟩

/-- C8 amended: for a createBoard call by an admin, the request succeeds
exactly when the trimmed name and title are non-empty and the position is a
positive integer; the value 0 and every negative or absent position are
rejected, and every rejection of this validation is the bad-request
(InvalidArgument) error, never Unauthorized. -/
theorem c8_createBoard_validation (p : Payload) (name title body : List Char)
    (position : Option Int) (now newId : String) (s : Store) (hrole : p.role = "admin") :
    ((createBoard p name title body position now newId s).2 = none ↔
      (jsTrim name ≠ [] ∧ jsTrim title ≠ [] ∧ ∃ k, position = some k ∧ 0 < k)) ∧
    (∀ e, (createBoard p name title body position now newId s).2 = some e →
      ∃ msg, e = Err.badRequest msg) := by
  unfold createBoard
  rw [if_neg (by simp [hrole])]
  by_cases h1 : (jsTrim name == []) = true
  · rw [if_pos h1]
    constructor
    · constructor
      · intro h
        exact absurd h (by simp)
      · rintro ⟨hn, -, -⟩
        exact absurd (by simpa using h1) hn
    · intro e he
      exact ⟨"Board name must not be empty", by simpa using he.symm⟩
  · rw [if_neg h1]
    by_cases h2 : (jsTrim title == []) = true
    · rw [if_pos h2]
      constructor
      · constructor
        · intro h
          exact absurd h (by simp)
        · rintro ⟨-, htl, -⟩
          exact absurd (by simpa using h2) htl
      · intro e he
        exact ⟨"Board title must not be empty", by simpa using he.symm⟩
    · rw [if_neg h2]
      by_cases h3 : positionRejected position = true
      · rw [if_pos h3]
        constructor
        · constructor
          · intro h
            exact absurd h (by simp)
          · rintro ⟨-, -, hk⟩
            rw [(positionRejected_eq_false position).mpr hk] at h3
            exact absurd h3 Bool.false_ne_true
        · intro e he
          exact ⟨"Position must be number", by simpa using he.symm⟩
      · rw [if_neg h3]
        constructor
        · constructor
          · intro _
            refine ⟨by simpa using h1, by simpa using h2, ?_⟩
            exact (positionRejected_eq_false position).mp (by simpa using h3)
          · intro _
            rfl
        · intro e he
          exact absurd he (by simp)

/-- Witness for C8's amended theorem: with non-empty name and title and
position 1 the admin call succeeds, and every failure is a bad request. -/
theorem c8_createBoard_validation_witness :
    ((createBoard ⟨"u1", "admin"⟩ ['g'] ['G'] [] (some 1) "T0" "b9" emptyStore).2 = none ↔
      (jsTrim ['g'] ≠ [] ∧ jsTrim ['G'] ≠ [] ∧ ∃ k, (some 1 : Option Int) = some k ∧ 0 < k)) ∧
    (∀ e, (createBoard ⟨"u1", "admin"⟩ ['g'] ['G'] [] (some 1) "T0" "b9" emptyStore).2 = some e →
      ∃ msg, e = Err.badRequest msg) :=
  c8_createBoard_validation ⟨"u1", "admin"⟩ ['g'] ['G'] [] (some 1) "T0" "b9" emptyStore (by rfl)

/-- Every controller detects its validation, authorization and lookup
failures before performing any write: an error outcome leaves the store
exactly as it was. -/
theorem runMut_error_frame (m : Mut) (s : Store) :
    (runMut m s).2.isSome = true → (runMut m s).1 = s := by
  cases m with
  | mkBoard p n t b pos now newId =>
    simp only [runMut]
    unfold createBoard
    repeat' split
    all_goals intro h
    all_goals first | rfl | simp at h
  | delBoard p bid =>
    simp only [runMut]
    unfold deleteBoard
    repeat' split
    all_goals intro h
    all_goals first | rfl | simp at h
  | edBoard p bid n t b pos =>
    simp only [runMut]
    unfold editBoard
    repeat' split
    all_goals intro h
    all_goals first | rfl | simp at h
  | mkThread p bid t b f now newId =>
    simp only [runMut]
    unfold createThread
    repeat' split
    all_goals intro h
    all_goals first | rfl | simp at h
  | delThread p tid =>
    simp only [runMut]
    unfold deleteThread
    repeat' split
    all_goals intro h
    all_goals first | rfl | simp at h
  | edThread p tid t b c now =>
    simp only [runMut]
    unfold editThread
    repeat' split
    all_goals intro h
    all_goals first | rfl | simp at h
  | adminEdThread p tid t b pi c now =>
    simp only [runMut]
    unfold adminEditThread
    repeat' split
    all_goals intro h
    all_goals first | rfl | simp at h
  | likeT p tid =>
    simp only [runMut]
    unfold likeThread
    repeat' split
    all_goals intro h
    all_goals first | rfl | simp at h
  | mkAnswer p tid ato b f now newId =>
    simp only [runMut]
    unfold createAnswer
    repeat' split
    all_goals intro h
    all_goals first | rfl | simp at h
  | delAnswer p aid =>
    simp only [runMut]
    unfold deleteAnswer
    repeat' split
    all_goals intro h
    all_goals first | rfl | simp at h
  | edAnswer p aid b now =>
    simp only [runMut]
    unfold editAnswer
    repeat' split
    all_goals intro h
    all_goals first | rfl | simp at h
  | likeA p aid =>
    simp only [runMut]
    unfold likeAnswer
    repeat' split
    all_goals intro h
    all_goals first | rfl | simp at h

/-- C5: a non-author caller - in particular one who is neither the author
nor a moderator - editing a thread with valid content receives Unauthorized
and the store (hence the thread) is unchanged; and in general every
validation, authorization or lookup failure of any mutating controller
aborts before any write, leaving every stored entity untouched. -/
theorem c5_auth_failure_no_write :
    (∀ (s : Store) (tid : String) (title body : List Char) (closed : Option Bool)
      (now : String) (p : Payload) (t : Thread),
      jsTrim title ≠ [] → jsTrim body ≠ [] →
      findThread s tid = some t → p.id ≠ t.author → p.role ≠ "admin" →
      editThread p tid title body closed now s
        = (s, some (Err.unauthorized "Action not allowed"))) ∧
    (∀ (m : Mut) (s : Store), (runMut m s).2.isSome = true → (runMut m s).1 = s) := by
  constructor
  · intro s tid title body closed now p t htitle hbody ht hne _
    unfold editThread
    rw [if_neg (by simp [htitle]), if_neg (by simp [hbody]), ht]
    dsimp only
    rw [if_pos (by simpa using hne)]
  · exact runMut_error_frame

/-- Witness for C5: user u3 (not the author u1, not an admin) edits the
example thread and gets Unauthorized with the store unchanged; and a
concrete failing deleteBoard by a non-admin leaves the store unchanged. -/
theorem c5_auth_failure_no_write_witness :
    (editThread ⟨"u3", "user"⟩ "t1" ['A'] ['B'] none "T8" sExa
      = (sExa, some (Err.unauthorized "Action not allowed"))) ∧
    (runMut (Mut.delBoard ⟨"u3", "user"⟩ "b1") sExa).1 = sExa :=
  ⟨c5_auth_failure_no_write.1 sExa "t1" ['A'] ['B'] none "T8" ⟨"u3", "user"⟩ tExa
      (by decide) (by decide) (by rfl) (by decide) (by decide),
    c5_auth_failure_no_write.2 (Mut.delBoard ⟨"u3", "user"⟩ "b1") sExa (by decide)⟩

/-- Read phase of the like controllers: `findById` delivers the stored likes
array from which the toggle is computed in memory. -/
def likeReadLikes (s : Store) (tid : String) : Option (List String) :=
  (findThread s tid).map Thread.likes

/-- Write phase of the like controllers: `thread.save()` persists the
in-memory document, overwriting the stored likes array with the locally
computed value regardless of what the stored document holds by then (a
blind overwrite of a previously read set, not a conditional update). -/
def likeWriteLikes (s : Store) (tid : String) (newLikes : List String) : Store :=
  { s with threads := updateFirst (fun t => t.id == tid) (fun t => { t with likes := newLikes }) s.threads }

/-- likeThread is exactly the read phase followed by the blind write of the
toggled array, which justifies analysing interleavings of the two phases. -/
theorem likeThread_is_read_then_write (s : Store) (p : Payload) (tid : String) (t : Thread)
    (htid : tid ≠ "") (ht : findThread s tid = some t) :
    likeThread p tid s =
      (likeWriteLikes s tid (toggleLike ((likeReadLikes s tid).getD []) p.id), none) := by
  have hread : likeReadLikes s tid = some t.likes := by
    unfold likeReadLikes
    rw [ht]
    rfl
  rw [likeThread_found s p tid t htid ht, hread]
  unfold likeWriteLikes
  rfl

/-- Example thread with no likes yet, for the interleaving analysis. -/
def tClean : Thread := { tExa with likes := [] }

/-- Example store holding tClean. -/
def sClean : Store := { boards := [bExa], threads := [tClean], answers := [aExa] }

/-- C9: the implementation's like toggle is a read followed by a blind
overwrite of the read likes array, so the spec's concurrency contract fails.
Interleaving two toggles as read-read-write-write on a thread with no likes:
with two distinct users a and b, both reads see the empty set, both toggles
commit as likes, yet the final set is just b - user a's like is lost, though
serially both would be present.  With the same user u twice, both commit as
likes and the final set still contains u, whereas the serial execution of
two toggles (last conjunct, via the actual controller) returns the set to
empty.  So neither the distinct-user nor the same-user contract holds. -/
theorem c9_blind_write_loses_toggle :
    likeReadLikes sClean "t1" = some [] ∧
    (likeReadLikes (likeWriteLikes (likeWriteLikes sClean "t1" (toggleLike [] "a")) "t1"
        (toggleLike [] "b")) "t1" = some ["b"]) ∧
    (likeReadLikes (likeWriteLikes (likeWriteLikes sClean "t1" (toggleLike [] "u")) "t1"
        (toggleLike [] "u")) "t1" = some ["u"]) ∧
    likeReadLikes (likeThread ⟨"u", "user"⟩ "t1" (likeThread ⟨"u", "user"⟩ "t1" sClean).1).1 "t1"
      = some [] := by
  refine ⟨by decide, by decide, by decide, by decide⟩

/-! ### Counting lemmas relating parent counters to child filters -/

theorem counts_updateFirst_append {α β : Type} (key : α → String) (cnt : α → Int)
    (ckey : β → String) (f : α → α) (k : String) (x : β) (cs : List β)
    (hkey : ∀ a, key (f a) = key a) (hcnt : ∀ a, cnt (f a) = cnt a + 1)
    (hx : ckey x = k) :
    ∀ l : List α, (l.map key).Nodup →
      (∀ a ∈ l, cnt a = ((cs.filter (fun c => ckey c == key a)).length : Int)) →
      ∀ a ∈ updateFirst (fun a => key a == k) f l,
        cnt a = (((cs ++ [x]).filter (fun c => ckey c == key a)).length : Int) := by
  intro l
  induction l with
  | nil =>
    intro _ _ a ha
    simp [updateFirst] at ha
  | cons a0 as ih =>
    intro hnd hinv a ha
    rw [List.map_cons, List.nodup_cons] at hnd
    simp only [updateFirst] at ha
    by_cases hp : (key a0 == k) = true
    · rw [if_pos hp, List.mem_cons] at ha
      rcases ha with rfl | ha
      · rw [hcnt, hkey, hinv a0 (List.mem_cons_self a0 as), List.filter_append,
          List.filter_cons_of_pos (by rw [hx, eq_of_beq hp]; exact beq_self_eq_true k),
          List.filter_nil]
        push_cast [List.length_append, List.length_singleton]
        omega
      · have hne : key a ≠ k := by
          intro hk
          exact hnd.1 (List.mem_map.mpr ⟨a, ha, by rw [hk, ← eq_of_beq hp]⟩)
        rw [hinv a (List.mem_cons_of_mem _ ha), List.filter_append,
          List.filter_cons_of_neg (by simp only [hx, beq_iff_eq]; exact fun hc => hne hc.symm),
          List.filter_nil, List.append_nil]
    · rw [if_neg hp, List.mem_cons] at ha
      rcases ha with rfl | ha
      · have hne : key a ≠ k := fun hk => hp (beq_iff_eq.mpr hk)
        rw [hinv a (List.mem_cons_self a as), List.filter_append,
          List.filter_cons_of_neg (by simp only [hx, beq_iff_eq]; exact fun hc => hne hc.symm),
          List.filter_nil, List.append_nil]
      · exact ih hnd.2 (fun a1 ha1 => hinv a1 (List.mem_cons_of_mem _ ha1)) a ha

theorem counts_updateFirst_remove {α β : Type} (key : α → String) (cnt : α → Int)
    (ckey : β → String) (cp : β → Bool) (f : α → α) (k : String) (x : β) (cs : List β)
    (hkey : ∀ a, key (f a) = key a) (hcnt : ∀ a, cnt (f a) = cnt a - 1)
    (hfind : cs.find? cp = some x) (hx : ckey x = k) :
    ∀ l : List α, (l.map key).Nodup →
      (∀ a ∈ l, cnt a = ((cs.filter (fun c => ckey c == key a)).length : Int)) →
      ∀ a ∈ updateFirst (fun a => key a == k) f l,
        cnt a = (((removeFirst cp cs).filter (fun c => ckey c == key a)).length : Int) := by
  intro l
  induction l with
  | nil =>
    intro _ _ a ha
    simp [updateFirst] at ha
  | cons a0 as ih =>
    intro hnd hinv a ha
    rw [List.map_cons, List.nodup_cons] at hnd
    simp only [updateFirst] at ha
    by_cases hp : (key a0 == k) = true
    · rw [if_pos hp, List.mem_cons] at ha
      rcases ha with rfl | ha
      · have hlen := length_filter_removeFirst cp (fun c => ckey c == key a0) hfind
        rw [if_pos (show (ckey x == key a0) = true by
          rw [hx, eq_of_beq hp]; exact beq_self_eq_true k)] at hlen
        rw [hcnt, hkey, hinv a0 (List.mem_cons_self a0 as), hlen]
        push_cast
        omega
      · have hne : key a ≠ k := by
          intro hk
          exact hnd.1 (List.mem_map.mpr ⟨a, ha, by rw [hk, ← eq_of_beq hp]⟩)
        have hlen := length_filter_removeFirst cp (fun c => ckey c == key a) hfind
        rw [if_neg (show ¬(ckey x == key a) = true by
          simp only [hx, beq_iff_eq]; exact fun hc => hne hc.symm)] at hlen
        rw [hinv a (List.mem_cons_of_mem _ ha), hlen]
        push_cast
        omega
    · rw [if_neg hp, List.mem_cons] at ha
      rcases ha with rfl | ha
      · have hne : key a ≠ k := fun hk => hp (beq_iff_eq.mpr hk)
        have hlen := length_filter_removeFirst cp (fun c => ckey c == key a) hfind
        rw [if_neg (show ¬(ckey x == key a) = true by
          simp only [hx, beq_iff_eq]; exact fun hc => hne hc.symm)] at hlen
        rw [hinv a (List.mem_cons_self a as), hlen]
        push_cast
        omega
      · exact ih hnd.2 (fun a1 ha1 => hinv a1 (List.mem_cons_of_mem _ ha1)) a ha

theorem counts_removeFirst_filter {α β : Type} (key : α → String) (cnt : α → Int)
    (ckey : β → String) (k : String) (cs : List β) (l : List α)
    (hnd : (l.map key).Nodup)
    (hinv : ∀ a ∈ l, cnt a = ((cs.filter (fun c => ckey c == key a)).length : Int)) :
    ∀ a ∈ removeFirst (fun a => key a == k) l,
      cnt a = (((cs.filter (fun c => ckey c != k)).filter
        (fun c => ckey c == key a)).length : Int) := by
  intro a ha
  have hmem : a ∈ l := (removeFirst_sublist _ l).subset ha
  have hne : key a ≠ k := key_ne_of_mem_removeFirst hnd ha
  rw [hinv a hmem]
  congr 2
  rw [List.filter_filter]
  apply List.filter_congr
  intro c _
  by_cases hq : (ckey c == key a) = true
  · rw [hq]
    have : (ckey c != k) = true := by
      rw [bne_iff_ne]
      rw [eq_of_beq hq]
      exact hne
    rw [this]
    rfl
  · rw [Bool.not_eq_true] at hq
    rw [hq]
    rfl

theorem counts_updateFirst_frame {α β : Type} (key : α → String) (cnt : α → Int)
    (ckey : β → String) (p : α → Bool) (f : α → α) (cs : List β)
    (hkey : ∀ a, key (f a) = key a) (hcnt : ∀ a, cnt (f a) = cnt a) (l : List α)
    (hinv : ∀ a ∈ l, cnt a = ((cs.filter (fun c => ckey c == key a)).length : Int)) :
    ∀ a ∈ updateFirst p f l,
      cnt a = ((cs.filter (fun c => ckey c == key a)).length : Int) := by
  intro a ha
  rcases mem_updateFirst ha with h | ⟨x0, hx0, rfl⟩
  · exact hinv a h
  · rw [hcnt, hkey]
    exact hinv x0 hx0

/-! ### Aggregate-consistency invariants and reachability -/

/-- Thread-level invariant of C1: every stored thread's answersCount equals
the number of answers carrying its id as threadId. -/
def threadCountsOK (s : Store) : Prop :=
  ∀ t ∈ s.threads, t.answersCount =
    ((s.answers.filter (fun a => a.threadId == t.id)).length : Int)

/-- Board-level invariant of C1: every stored board's answersCount equals
the number of answers carrying its id as boardId. -/
def boardCountsOK (s : Store) : Prop :=
  ∀ b ∈ s.boards, b.answersCount =
    ((s.answers.filter (fun a => a.boardId == b.id)).length : Int)

/-- MongoDB _id uniqueness within the thread and board collections. -/
def idsOK (s : Store) : Prop :=
  (s.threads.map Thread.id).Nodup ∧ (s.boards.map Board.id).Nodup

/-- Identifier-like strings occurring anywhere in the store; a freshly
generated ObjectId differs from all of them. -/
def usedIds (s : Store) : List String :=
  s.boards.map Board.id ++ s.threads.map Thread.id ++ s.threads.map Thread.boardId ++
    s.answers.map Answer.id ++ s.answers.map Answer.threadId ++ s.answers.map Answer.boardId

/-- Freshness of the id generated by a creating mutation (MongoDB ObjectId
generation never repeats an id in use). -/
def mutFresh : Mut → Store → Prop
  | .mkBoard _ _ _ _ _ _ newId, s => newId ∉ usedIds s
  | .mkThread _ _ _ _ _ _ newId, s => newId ∉ usedIds s
  | .mkAnswer _ _ _ _ _ _ newId, s => newId ∉ usedIds s
  | _, _ => True

/-- Stores reachable from the empty database by an allowed subset of
mutations, creating mutations always drawing fresh ids. -/
inductive Reach (allow : Mut → Prop) : Store → Prop where
  | init : Reach allow emptyStore
  | step {s : Store} (m : Mut) (hs : Reach allow s) (ha : allow m) (hf : mutFresh m s) :
      Reach allow (runMut m s).1

/-- Stores reachable by arbitrary mutation sequences. -/
def Reachable (s : Store) : Prop := Reach (fun _ => True) s

/-- Mutations other than deleteThread and deleteAnswer. -/
def noDeleteTA : Mut → Prop
  | .delThread _ _ => False
  | .delAnswer _ _ => False
  | _ => True

/-- Stores reachable without deleteThread and deleteAnswer. -/
def ReachableND (s : Store) : Prop := Reach noDeleteTA s

theorem usedIds_spec {s : Store} {x : String} (h : x ∉ usedIds s) :
    x ∉ s.boards.map Board.id ∧ x ∉ s.threads.map Thread.id ∧
    x ∉ s.threads.map Thread.boardId ∧ x ∉ s.answers.map Answer.id ∧
    x ∉ s.answers.map Answer.threadId ∧ x ∉ s.answers.map Answer.boardId := by
  unfold usedIds at h
  simp only [List.mem_append, not_or] at h
  exact ⟨h.1.1.1.1.1, h.1.1.1.1.2, h.1.1.1.2, h.1.1.2, h.1.2, h.2⟩

theorem nodup_append_singleton {l : List String} {x : String} (hx : x ∉ l) (hl : l.Nodup) :
    (l ++ [x]).Nodup := by
  rw [List.nodup_append]
  exact ⟨hl, List.nodup_singleton x, fun a ha hb => hx ((List.mem_singleton.mp hb) ▸ ha)⟩

theorem filter_beq_eq_nil {β : Type} (ckey : β → String) (cs : List β) (k : String)
    (h : k ∉ cs.map ckey) : cs.filter (fun c => ckey c == k) = [] := by
  apply List.filter_eq_nil_iff.mpr
  intro c hc hk
  exact h (List.mem_map.mpr ⟨c, hc, eq_of_beq hk⟩)

/-- One mutation step preserves id uniqueness and the thread-level
answersCount invariant. -/
theorem coreWF_step (m : Mut) (s : Store) (hids : idsOK s) (hcnt : threadCountsOK s)
    (hf : mutFresh m s) : idsOK (runMut m s).1 ∧ threadCountsOK (runMut m s).1 := by
  cases m with
  | mkBoard p n ttl bdy pos now newId =>
    obtain ⟨hfb, hft, hftb, hfa, hfat, hfab⟩ := usedIds_spec hf
    simp only [runMut]
    unfold createBoard
    by_cases h1 : (p.role != "admin") = true
    · rw [if_pos h1]
      exact ⟨hids, hcnt⟩
    · rw [if_neg h1]
      by_cases h2 : (jsTrim n == []) = true
      · rw [if_pos h2]
        exact ⟨hids, hcnt⟩
      · rw [if_neg h2]
        by_cases h3 : (jsTrim ttl == []) = true
        · rw [if_pos h3]
          exact ⟨hids, hcnt⟩
        · rw [if_neg h3]
          by_cases h4 : positionRejected pos = true
          · rw [if_pos h4]
            exact ⟨hids, hcnt⟩
          · rw [if_neg h4]
            dsimp only
            refine ⟨⟨hids.1, ?_⟩, hcnt⟩
            rw [List.map_append]
            exact nodup_append_singleton hfb hids.2
  | delBoard p bid =>
    simp only [runMut]
    unfold deleteBoard
    by_cases h1 : (p.role != "admin") = true
    · rw [if_pos h1]
      exact ⟨hids, hcnt⟩
    · rw [if_neg h1]
      by_cases h2 : (bid == "") = true
      · rw [if_pos h2]
        exact ⟨hids, hcnt⟩
      · rw [if_neg h2]
        cases hfind : findBoard s bid with
        | none => exact ⟨hids, hcnt⟩
        | some board =>
          dsimp only
          refine ⟨⟨hids.1, ?_⟩, hcnt⟩
          exact hids.2.sublist ((removeFirst_sublist _ s.boards).map Board.id)
  | edBoard p bid n ttl bdy pos =>
    simp only [runMut]
    unfold editBoard
    by_cases h1 : (p.role != "admin") = true
    · rw [if_pos h1]
      exact ⟨hids, hcnt⟩
    · rw [if_neg h1]
      by_cases h2 : (jsTrim n == []) = true
      · rw [if_pos h2]
        exact ⟨hids, hcnt⟩
      · rw [if_neg h2]
        by_cases h3 : (jsTrim ttl == []) = true
        · rw [if_pos h3]
          exact ⟨hids, hcnt⟩
        · rw [if_neg h3]
          by_cases h4 : positionRejected pos = true
          · rw [if_pos h4]
            exact ⟨hids, hcnt⟩
          · rw [if_neg h4]
            dsimp only
            refine ⟨⟨hids.1, ?_⟩, hcnt⟩
            rw [map_updateFirst Board.id (by intro x; rfl) s.boards]
            exact hids.2
  | mkThread p bid ttl bdy fls now newId =>
    obtain ⟨hfb, hft, hftb, hfa, hfat, hfab⟩ := usedIds_spec hf
    simp only [runMut]
    unfold createThread
    by_cases h1 : (bid == "") = true
    · rw [if_pos h1]
      exact ⟨hids, hcnt⟩
    · rw [if_neg h1]
      by_cases h2 : (jsTrim ttl == []) = true
      · rw [if_pos h2]
        exact ⟨hids, hcnt⟩
      · rw [if_neg h2]
        by_cases h3 : (jsTrim bdy == []) = true
        · rw [if_pos h3]
          exact ⟨hids, hcnt⟩
        · rw [if_neg h3]
          dsimp only
          refine ⟨⟨?_, ?_⟩, ?_⟩
          · rw [List.map_append]
            exact nodup_append_singleton hft hids.1
          · rw [map_updateFirst Board.id (by intro x; rfl) s.boards]
            exact hids.2
          · intro t ht
            rcases List.mem_append.mp ht with h | h
            · exact hcnt t h
            · rw [List.mem_singleton.mp h]
              rw [filter_beq_eq_nil Answer.threadId s.answers newId hfat]
              rfl
  | delThread p tid =>
    simp only [runMut]
    unfold deleteThread
    by_cases h1 : (p.role != "admin") = true
    · rw [if_pos h1]
      exact ⟨hids, hcnt⟩
    · rw [if_neg h1]
      by_cases h2 : (tid == "") = true
      · rw [if_pos h2]
        exact ⟨hids, hcnt⟩
      · rw [if_neg h2]
        cases hfind : findThread s tid with
        | none => exact ⟨hids, hcnt⟩
        | some thread =>
          dsimp only
          refine ⟨⟨?_, ?_⟩, ?_⟩
          · exact hids.1.sublist ((removeFirst_sublist _ s.threads).map Thread.id)
          · rw [map_updateFirst Board.id (by intro x; rfl)]
            exact hids.2
          · exact counts_removeFirst_filter Thread.id Thread.answersCount Answer.threadId
              tid s.answers s.threads hids.1 hcnt
  | edThread p tid ttl bdy c now =>
    simp only [runMut]
    unfold editThread
    by_cases h1 : (jsTrim ttl == []) = true
    · rw [if_pos h1]
      exact ⟨hids, hcnt⟩
    · rw [if_neg h1]
      by_cases h2 : (jsTrim bdy == []) = true
      · rw [if_pos h2]
        exact ⟨hids, hcnt⟩
      · rw [if_neg h2]
        cases hfind : findThread s tid with
        | none => exact ⟨hids, hcnt⟩
        | some thread =>
          dsimp only
          by_cases h3 : (p.id != thread.author) = true
          · rw [if_pos h3]
            exact ⟨hids, hcnt⟩
          · rw [if_neg h3]
            dsimp only
            refine ⟨⟨?_, hids.2⟩, ?_⟩
            · rw [map_updateFirst Thread.id (by intro x; rfl)]
              exact hids.1
            · exact counts_updateFirst_frame Thread.id Thread.answersCount Answer.threadId
                _ _ s.answers (by intro a; rfl) (by intro a; rfl) s.threads hcnt
  | adminEdThread p tid ttl bdy pi c now =>
    simp only [runMut]
    unfold adminEditThread
    by_cases h0 : (p.role != "admin") = true
    · rw [if_pos h0]
      exact ⟨hids, hcnt⟩
    · rw [if_neg h0]
      by_cases h1 : (jsTrim ttl == []) = true
      · rw [if_pos h1]
        exact ⟨hids, hcnt⟩
      · rw [if_neg h1]
        by_cases h2 : (jsTrim bdy == []) = true
        · rw [if_pos h2]
          exact ⟨hids, hcnt⟩
        · rw [if_neg h2]
          cases hfind : findThread s tid with
          | none => exact ⟨hids, hcnt⟩
          | some thread =>
            dsimp only
            refine ⟨⟨?_, hids.2⟩, ?_⟩
            · rw [map_updateFirst Thread.id (by intro x; rfl)]
              exact hids.1
            · exact counts_updateFirst_frame Thread.id Thread.answersCount Answer.threadId
                _ _ s.answers (by intro a; rfl) (by intro a; rfl) s.threads hcnt
  | likeT p tid =>
    simp only [runMut]
    unfold likeThread
    by_cases h1 : (tid == "") = true
    · rw [if_pos h1]
      exact ⟨hids, hcnt⟩
    · rw [if_neg h1]
      cases hfind : findThread s tid with
      | none => exact ⟨hids, hcnt⟩
      | some thread =>
        dsimp only
        refine ⟨⟨?_, hids.2⟩, ?_⟩
        · rw [map_updateFirst Thread.id (by intro x; rfl)]
          exact hids.1
        · exact counts_updateFirst_frame Thread.id Thread.answersCount Answer.threadId
            _ _ s.answers (by intro a; rfl) (by intro a; rfl) s.threads hcnt
  | mkAnswer p tid ato bdy fls now newId =>
    obtain ⟨hfb, hft, hftb, hfa, hfat, hfab⟩ := usedIds_spec hf
    simp only [runMut]
    unfold createAnswer
    by_cases h1 : (tid == "") = true
    · rw [if_pos h1]
      exact ⟨hids, hcnt⟩
    · rw [if_neg h1]
      by_cases h2 : (jsTrim bdy == []) = true
      · rw [if_pos h2]
        exact ⟨hids, hcnt⟩
      · rw [if_neg h2]
        cases hfind : findThread s tid with
        | none => exact ⟨hids, hcnt⟩
        | some thread =>
          dsimp only
          refine ⟨⟨?_, ?_⟩, ?_⟩
          · rw [map_updateFirst Thread.id (by intro x; rfl)]
            exact hids.1
          · rw [map_updateFirst Board.id (by intro x; rfl)]
            exact hids.2
          · exact counts_updateFirst_append Thread.id Thread.answersCount Answer.threadId
              _ tid _ s.answers (by intro a; rfl) (by intro a; rfl) rfl
              s.threads hids.1 hcnt
  | delAnswer p aid =>
    simp only [runMut]
    unfold deleteAnswer
    by_cases h1 : (p.role != "admin") = true
    · rw [if_pos h1]
      exact ⟨hids, hcnt⟩
    · rw [if_neg h1]
      by_cases h2 : (aid == "") = true
      · rw [if_pos h2]
        exact ⟨hids, hcnt⟩
      · rw [if_neg h2]
        cases hfind : findAnswer s aid with
        | none => exact ⟨hids, hcnt⟩
        | some answer =>
          dsimp only
          refine ⟨⟨?_, hids.2⟩, ?_⟩
          · rw [map_updateFirst Thread.id (by intro x; rfl)]
            exact hids.1
          · unfold findAnswer at hfind
            exact counts_updateFirst_remove Thread.id Thread.answersCount Answer.threadId
              (fun a => a.id == aid) _ answer.threadId answer s.answers
              (by intro a; rfl) (by intro a; rfl) hfind rfl s.threads hids.1 hcnt
  | edAnswer p aid bdy now =>
    simp only [runMut]
    unfold editAnswer
    by_cases h1 : (jsTrim bdy == []) = true
    · rw [if_pos h1]
      exact ⟨hids, hcnt⟩
    · rw [if_neg h1]
      cases hfind : findAnswer s aid with
      | none => exact ⟨hids, hcnt⟩
      | some answer =>
        dsimp only
        by_cases h2 : (p.id != answer.author) = true
        · rw [if_pos h2]
          exact ⟨hids, hcnt⟩
        · rw [if_neg h2]
          dsimp only
          refine ⟨hids, ?_⟩
          intro t ht
          dsimp only at ht ⊢
          rw [length_filter_updateFirst (fun (a : Answer) => a.threadId == t.id) (by intro x; rfl)]
          exact hcnt t ht
  | likeA p aid =>
    simp only [runMut]
    unfold likeAnswer
    by_cases h1 : (aid == "") = true
    · rw [if_pos h1]
      exact ⟨hids, hcnt⟩
    · rw [if_neg h1]
      cases hfind : findAnswer s aid with
      | none => exact ⟨hids, hcnt⟩
      | some answer =>
        dsimp only
        refine ⟨hids, ?_⟩
        intro t ht
        dsimp only at ht ⊢
        rw [length_filter_updateFirst (fun (a : Answer) => a.threadId == t.id) (by intro x; rfl)]
        exact hcnt t ht

/-- One mutation step other than deleteThread/deleteAnswer preserves the
board-level answersCount invariant. -/
theorem boardCounts_step (m : Mut) (s : Store) (ha : noDeleteTA m) (hids : idsOK s)
    (hcntB : boardCountsOK s) (hf : mutFresh m s) : boardCountsOK (runMut m s).1 := by
  cases m with
  | mkBoard p n ttl bdy pos now newId =>
    obtain ⟨hfb, hft, hftb, hfa, hfat, hfab⟩ := usedIds_spec hf
    simp only [runMut]
    unfold createBoard
    by_cases h1 : (p.role != "admin") = true
    · rw [if_pos h1]
      exact hcntB
    · rw [if_neg h1]
      by_cases h2 : (jsTrim n == []) = true
      · rw [if_pos h2]
        exact hcntB
      · rw [if_neg h2]
        by_cases h3 : (jsTrim ttl == []) = true
        · rw [if_pos h3]
          exact hcntB
        · rw [if_neg h3]
          by_cases h4 : positionRejected pos = true
          · rw [if_pos h4]
            exact hcntB
          · rw [if_neg h4]
            dsimp only
            intro b hb
            rcases List.mem_append.mp hb with h | h
            · exact hcntB b h
            · rw [List.mem_singleton.mp h]
              rw [filter_beq_eq_nil Answer.boardId s.answers newId hfab]
              rfl
  | delBoard p bid =>
    simp only [runMut]
    unfold deleteBoard
    by_cases h1 : (p.role != "admin") = true
    · rw [if_pos h1]
      exact hcntB
    · rw [if_neg h1]
      by_cases h2 : (bid == "") = true
      · rw [if_pos h2]
        exact hcntB
      · rw [if_neg h2]
        cases hfind : findBoard s bid with
        | none => exact hcntB
        | some board =>
          dsimp only
          intro b hb
          exact hcntB b ((removeFirst_sublist _ s.boards).subset hb)
  | edBoard p bid n ttl bdy pos =>
    simp only [runMut]
    unfold editBoard
    by_cases h1 : (p.role != "admin") = true
    · rw [if_pos h1]
      exact hcntB
    · rw [if_neg h1]
      by_cases h2 : (jsTrim n == []) = true
      · rw [if_pos h2]
        exact hcntB
      · rw [if_neg h2]
        by_cases h3 : (jsTrim ttl == []) = true
        · rw [if_pos h3]
          exact hcntB
        · rw [if_neg h3]
          by_cases h4 : positionRejected pos = true
          · rw [if_pos h4]
            exact hcntB
          · rw [if_neg h4]
            dsimp only
            exact counts_updateFirst_frame Board.id Board.answersCount Answer.boardId
              _ _ s.answers (by intro b; rfl) (by intro b; rfl) s.boards hcntB
  | mkThread p bid ttl bdy fls now newId =>
    simp only [runMut]
    unfold createThread
    by_cases h1 : (bid == "") = true
    · rw [if_pos h1]
      exact hcntB
    · rw [if_neg h1]
      by_cases h2 : (jsTrim ttl == []) = true
      · rw [if_pos h2]
        exact hcntB
      · rw [if_neg h2]
        by_cases h3 : (jsTrim bdy == []) = true
        · rw [if_pos h3]
          exact hcntB
        · rw [if_neg h3]
          dsimp only
          exact counts_updateFirst_frame Board.id Board.answersCount Answer.boardId
            _ _ s.answers (by intro b; rfl) (by intro b; rfl) s.boards hcntB
  | delThread p tid =>
    exact ha.elim
  | edThread p tid ttl bdy c now =>
    simp only [runMut]
    unfold editThread
    by_cases h1 : (jsTrim ttl == []) = true
    · rw [if_pos h1]
      exact hcntB
    · rw [if_neg h1]
      by_cases h2 : (jsTrim bdy == []) = true
      · rw [if_pos h2]
        exact hcntB
      · rw [if_neg h2]
        cases hfind : findThread s tid with
        | none => exact hcntB
        | some thread =>
          dsimp only
          by_cases h3 : (p.id != thread.author) = true
          · rw [if_pos h3]
            exact hcntB
          · rw [if_neg h3]
            exact hcntB
  | adminEdThread p tid ttl bdy pi c now =>
    simp only [runMut]
    unfold adminEditThread
    by_cases h0 : (p.role != "admin") = true
    · rw [if_pos h0]
      exact hcntB
    · rw [if_neg h0]
      by_cases h1 : (jsTrim ttl == []) = true
      · rw [if_pos h1]
        exact hcntB
      · rw [if_neg h1]
        by_cases h2 : (jsTrim bdy == []) = true
        · rw [if_pos h2]
          exact hcntB
        · rw [if_neg h2]
          cases hfind : findThread s tid with
          | none => exact hcntB
          | some thread => exact hcntB
  | likeT p tid =>
    simp only [runMut]
    unfold likeThread
    by_cases h1 : (tid == "") = true
    · rw [if_pos h1]
      exact hcntB
    · rw [if_neg h1]
      cases hfind : findThread s tid with
      | none => exact hcntB
      | some thread => exact hcntB
  | mkAnswer p tid ato bdy fls now newId =>
    simp only [runMut]
    unfold createAnswer
    by_cases h1 : (tid == "") = true
    · rw [if_pos h1]
      exact hcntB
    · rw [if_neg h1]
      by_cases h2 : (jsTrim bdy == []) = true
      · rw [if_pos h2]
        exact hcntB
      · rw [if_neg h2]
        cases hfind : findThread s tid with
        | none => exact hcntB
        | some thread =>
          dsimp only
          exact counts_updateFirst_append Board.id Board.answersCount Answer.boardId
            _ thread.boardId _ s.answers (by intro b; rfl) (by intro b; rfl) rfl
            s.boards hids.2 hcntB
  | delAnswer p aid =>
    exact ha.elim
  | edAnswer p aid bdy now =>
    simp only [runMut]
    unfold editAnswer
    by_cases h1 : (jsTrim bdy == []) = true
    · rw [if_pos h1]
      exact hcntB
    · rw [if_neg h1]
      cases hfind : findAnswer s aid with
      | none => exact hcntB
      | some answer =>
        dsimp only
        by_cases h2 : (p.id != answer.author) = true
        · rw [if_pos h2]
          exact hcntB
        · rw [if_neg h2]
          intro b hb
          dsimp only at hb ⊢
          rw [length_filter_updateFirst (fun (a : Answer) => a.boardId == b.id) (by intro x; rfl)]
          exact hcntB b hb
  | likeA p aid =>
    simp only [runMut]
    unfold likeAnswer
    by_cases h1 : (aid == "") = true
    · rw [if_pos h1]
      exact hcntB
    · rw [if_neg h1]
      cases hfind : findAnswer s aid with
      | none => exact hcntB
      | some answer =>
        dsimp only
        intro b hb
        dsimp only at hb ⊢
        rw [length_filter_updateFirst (fun (a : Answer) => a.boardId == b.id) (by intro x; rfl)]
        exact hcntB b hb

theorem reach_core {allow : Mut → Prop} {s : Store} (h : Reach allow s) :
    idsOK s ∧ threadCountsOK s := by
  induction h with
  | init =>
    refine ⟨⟨List.nodup_nil, List.nodup_nil⟩, ?_⟩
    intro t ht
    exact absurd ht (List.not_mem_nil t)
  | step m hs ha hf ih => exact coreWF_step m _ ih.1 ih.2 hf

theorem reachND_boards {s : Store} (h : Reach noDeleteTA s) : boardCountsOK s := by
  induction h with
  | init =>
    intro b hb
    exact absurd hb (List.not_mem_nil b)
  | step m hs ha hf ih => exact boardCounts_step m _ ha (reach_core hs).1 ih hf

/-- Store after an admin creates board b1. -/
def sC1a : Store :=
  (runMut (Mut.mkBoard ⟨"u9", "admin"⟩ ['g'] ['G'] [] (some 1) "T0" "b1") emptyStore).1

/-- Store after user u1 creates thread t1 under b1. -/
def sC1b : Store :=
  (runMut (Mut.mkThread ⟨"u1", "user"⟩ "b1" ['H'] ['h'] none "T1" "t1") sC1a).1

/-- Store after user u2 answers t1 with a1. -/
def sC1c : Store :=
  (runMut (Mut.mkAnswer ⟨"u2", "user"⟩ "t1" none ['r'] none "T2" "a1") sC1b).1

/-- Store after the admin deletes answer a1. -/
def sC1d : Store :=
  (runMut (Mut.delAnswer ⟨"u9", "admin"⟩ "a1") sC1c).1

/-- C1 counterexample: create a board, a thread, an answer, then delete the
answer - a reachable state in which the board-level half of the claimed
invariant fails: the board's answersCount is still 1 while no answer with
its boardId remains (deleteAnswer decrements only the thread's counter).
The thread-level half still holds there. -/
theorem c1_counterexample :
    Reachable sC1d ∧ ¬ boardCountsOK sC1d ∧ threadCountsOK sC1d := by
  refine ⟨?_, ?_, ?_⟩
  · show Reach (fun _ => True) sC1d
    exact Reach.step _ (Reach.step _ (Reach.step _ (Reach.step _ Reach.init trivial
      (by unfold mutFresh; decide)) trivial (by unfold mutFresh; decide)) trivial
      (by unfold mutFresh; decide)) trivial (by unfold mutFresh; decide)
  · unfold boardCountsOK
    decide
  · unfold threadCountsOK
    decide

/-- C1 (amended): in every reachable store state, Thread.answersCount equals
the number of answers whose threadId is that thread's id; and in every
state reachable without deleteThread and deleteAnswer, Board.answersCount
equals the number of answers whose boardId is that board's id.  (The board
half fails under those two delete mutations - see the counterexample -
because deleteAnswer decrements only Thread.answersCount and deleteThread
removes a thread's answers without adjusting Board.answersCount.) -/
theorem c1_answersCount_invariant :
    (∀ s : Store, Reachable s → threadCountsOK s) ∧
    (∀ s : Store, ReachableND s → boardCountsOK s) :=
  ⟨fun _ h => (reach_core h).2, fun _ h => reachND_boards h⟩

/-- Witness for C1: the state with one board, one thread and one answer is
reachable (also without deletes), and both halves of the invariant hold
there - each counter is 1 and one matching answer exists. -/
theorem c1_answersCount_invariant_witness :
    threadCountsOK sC1c ∧ boardCountsOK sC1c :=
  ⟨c1_answersCount_invariant.1 sC1c
      (Reach.step _ (Reach.step _ (Reach.step _ Reach.init trivial
        (by unfold mutFresh; decide)) trivial (by unfold mutFresh; decide)) trivial
        (by unfold mutFresh; decide)),
    c1_answersCount_invariant.2 sC1c
      (Reach.step _ (Reach.step _ (Reach.step _ Reach.init trivial
        (by unfold mutFresh; decide)) trivial (by unfold mutFresh; decide)) trivial
        (by unfold mutFresh; decide))⟩

end Forum
